import Mathlib

/-!
Verification of the agentic-layer SDK (adk package): request-scoped credential
propagation and remote-dependency resolution.

The definitions below are shallow embeddings of the Python sources under
`src/adk/agenticlayer/`:

* Python `dict[str, str]` values are modelled as insertion-ordered association
  lists with pairwise-distinct keys (`pyGet` models `d.get(k)`, `pyInsert`
  models `d[k] = v`, which overwrites in place and otherwise appends).
* `ReadonlyContext` / falsy session state is modelled as `Option SessionState`:
  `none` covers both `readonly_context` being `None` and a falsy `state`.
* The ADK session state dictionary is modelled by `SessionState`, with one
  field per session key that the sources touch: `externalToken` is the entry
  under `EXTERNAL_TOKEN_SESSION_KEY` and `httpHeaders` the entry under
  `HTTP_HEADERS_SESSION_KEY` (`constants.py`).
-/

/-- Python `s.lower()` on the header-name strings of this code base (ASCII):
lowercase every character. Stated over the character list so that concrete
instances evaluate inside the kernel; it agrees with `String.toLower`. -/
def pyLower (s : String) : String := ⟨s.data.map Char.toLower⟩

/-- Python `d.get(k)` on an association list (first match; the lists we build
model Python dicts, whose keys are pairwise distinct). -/
def pyGet {V : Type} : List (String × V) → String → Option V
  | [], _ => none
  | (a, b) :: d, k => if a = k then some b else pyGet d k

/-- Python `d[k] = v` on an association list: overwrite in place when the key
is present (Python dicts keep the position of an overwritten key), append
otherwise. -/
def pyInsert {V : Type} : List (String × V) → String → V → List (String × V)
  | [], k, v => [(k, v)]
  | (a, b) :: d, k, v => if a = k then (k, v) :: d else (a, b) :: pyInsert d k v

/-- ADK session state as used by the agenticlayer sources: `externalToken`
models the value stored under `EXTERNAL_TOKEN_SESSION_KEY`, `httpHeaders`
models the dictionary stored under `HTTP_HEADERS_SESSION_KEY` (empty list when
the key was never written - `state.get(HTTP_HEADERS_SESSION_KEY, {})`). -/
structure SessionState where
  externalToken : Option String := none
  httpHeaders : List (String × String) := []
deriving DecidableEq

/-- Embedding of `agent._get_mcp_headers_from_session` (agent.py lines 26-45):
the legacy header provider. It reads the external token from the session state
and, when the token is truthy (non-`None` and non-empty), returns the single
`X-External-Token` header; otherwise it returns the empty dictionary. -/
def getMcpHeadersFromSession (readonlyContext : Option SessionState) : List (String × String) :=
  match readonlyContext with
  | none => []
  | some st =>
    match st.externalToken with
    | some tok => if tok = "" then [] else [("X-External-Token", tok)]
    | none => []

/-- Embedding of `token_context.get_mcp_headers` (token_context.py lines
32-46): same shape as the session-based legacy provider, reading the
`ContextVar` value instead. -/
def getMcpHeaders (token : Option String) : List (String × String) :=
  match token with
  | some tok => if tok = "" then [] else [("X-External-Token", tok)]
  | none => []

/-- Embedding of the dictionary comprehension in `header_provider` (agent.py
line 87): `all_headers_lower = \x7bk.lower(): (k, v) for k, v in all_headers.items()\x7d`.
Later entries overwrite earlier ones when two stored keys share a lowercase
form. -/
def buildLower (allHeaders : List (String × String)) : List (String × (String × String)) :=
  allHeaders.foldl (fun acc kv => pyInsert acc (pyLower kv.1) (kv.1, kv.2)) []

/-- Embedding of the filtering loop of `header_provider` (agent.py lines
88-97): for each configured name, look its lowercase form up in the lowered
table and emit the configured spelling with the stored value. -/
def filterConfigured (propagateHeaders : List String)
    (allHeadersLower : List (String × (String × String))) : List (String × String) :=
  propagateHeaders.foldl
    (fun acc headerName =>
      match pyGet allHeadersLower (pyLower headerName) with
      | some kv => pyInsert acc headerName kv.2
      | none => acc)
    []

/-- Embedding of `_create_header_provider` (agent.py lines 48-100): the
allow-list outbound header provider built for one tool server. A `none`
context (or falsy state) and an empty stored-header dictionary both yield the
empty dictionary, mirroring the early returns. -/
def createHeaderProvider (propagateHeaders : List String)
    (readonlyContext : Option SessionState) : List (String × String) :=
  match readonlyContext with
  | none => []
  | some st =>
    if st.httpHeaders = [] then []
    else filterConfigured propagateHeaders (buildLower st.httpHeaders)

/-- Python `a or b` on optional strings, as used for the header lookups in
`_prepare_session`: a `None` or empty-string left operand falls through to the
right operand. -/
def pyOrStr (a b : Option String) : Option String :=
  match a with
  | some s => if s = "" then b else some s
  | none => b

/-- Embedding of the header extraction in
`TokenCapturingA2aAgentExecutor._prepare_session` (agent_to_a2a.py lines
76-82): exactly the three spellings `x-external-token`, `X-External-Token`
and `X-EXTERNAL-TOKEN` are looked up, combined with Python `or`. -/
def extractExternalToken (headers : List (String × String)) : Option String :=
  pyOrStr (pyGet headers "x-external-token")
    (pyOrStr (pyGet headers "X-External-Token") (pyGet headers "X-EXTERNAL-TOKEN"))

/-- Embedding of `TokenCapturingA2aAgentExecutor._prepare_session`
(agent_to_a2a.py lines 50-102). The argument `callContextHeaders` is `none`
when `context.call_context` is falsy or has no `"headers"` entry. When the
extracted token is truthy, the session state gains the token under
`EXTERNAL_TOKEN_SESSION_KEY` (via an appended `state_delta` event); in every
case the prepared session is returned and the request proceeds. Nothing is
ever written under `HTTP_HEADERS_SESSION_KEY`. -/
def prepareSession (session : SessionState)
    (callContextHeaders : Option (List (String × String))) : SessionState :=
  match callContextHeaders with
  | none => session
  | some headers =>
    match extractExternalToken headers with
    | some tok =>
      if tok = "" then session else { session with externalToken := some tok }
    | none => session

example : getMcpHeaders (some "tok") = [("X-External-Token", "tok")] := by decide

example : createHeaderProvider ["Authorization", "X-API-Key"]
    (some { httpHeaders := [("authorization", "Bearer token"), ("x-api-key", "key123")] })
    = [("Authorization", "Bearer token"), ("X-API-Key", "key123")] := by decide

example : extractExternalToken [("X-External-TOKEN", "tok")] = none := by decide

example : extractExternalToken [("x-external-token", ""), ("X-External-Token", "t2")]
    = some "t2" := by decide

/-! Resolver / factory embedding (`agent.py`, `AgentFactory`, and the startup
wiring of `agent_to_a2a.py`). Network calls are represented by an explicit
endpoint environment: `endpoint n` is the outcome of the `n`-th HTTP attempt
against one agent-card URL, `.error` standing for a connection-level
exception. -/

/-- Interaction modes of `config.InteractionType` (referenced from agent.py
line 169; the pydantic model itself is absent from the provided snapshot of
config.py). -/
inductive InteractionType where
  | transfer
  | toolCall
deriving DecidableEq

/-- Sub-agent descriptor `config.SubAgent` as consumed by
`AgentFactory.load_sub_agents` (fields read there: `url`, `name`,
`interaction_type`). -/
structure SubAgentCfg where
  name : String
  url : String
  interactionType : InteractionType
deriving DecidableEq

/-- Tool-server descriptor `config.McpTool` as consumed by
`AgentFactory.load_tools` (fields read there: `url`, `timeout`,
`propagate_headers`; `name` appears only in the log line). -/
structure McpToolCfg where
  name : String
  url : String
  timeout : Nat
  propagateHeaders : Option (List String)
deriving DecidableEq

/-- The agent card fetched from `{base_url}/.well-known/agent-card.json`
(fields consumed by `load_sub_agents`: `name`, `description`, plus the card
itself, which is handed to `RemoteA2aAgent`). -/
structure AgentCard where
  name : String
  description : String
  url : String
deriving DecidableEq

/-- Well-known agent-card path (`a2a.utils.constants.AGENT_CARD_WELL_KNOWN_PATH`). -/
def AGENT_CARD_WELL_KNOWN_PATH : String := "/.well-known/agent-card.json"

/-- Modelled from the spec: the bounded retry policy of the HTTP transport
that `AgentFactory.__init__` installs (`RetryTransport(retry=Retry(total=n))`,
an external collaborator; spec section 5: a maximum total attempt count of one
initial attempt plus `total` retries, after which the operation fails).
Returns the first successful card together with the number of attempts made,
or the final connection error after `retriesLeft` retries are exhausted. -/
def fetchWithRetry (endpoint : Nat → Except String AgentCard) :
    Nat → Nat → Except String AgentCard × Nat
  | retriesLeft, attemptIdx =>
    match endpoint attemptIdx with
    | .ok card => (.ok card, attemptIdx + 1)
    | .error e =>
      match retriesLeft with
      | 0 => (.error e, attemptIdx + 1)
      | r + 1 => fetchWithRetry endpoint r (attemptIdx + 1)

/-- Number of attempts performed by one agent-card fetch through the retry
transport. -/
def fetchAttempts (endpoint : Nat → Except String AgentCard) (retryTotal : Nat) : Nat :=
  (fetchWithRetry endpoint retryTotal 0).2

/-- The in-process proxy built per sub-agent: `RemoteA2aAgent(name=...,
agent_card=...)` with `description` copied from the card (agent.py lines
162-168). `AgentTool(agent=...)` exposes the same `name`/`description`, so the
same record also stands for the agent-as-tool proxy. -/
structure RemoteAgentModel where
  name : String
  description : String
  card : AgentCard
deriving DecidableEq

/-- Embedding of `AgentFactory.load_sub_agents` (agent.py lines 142-174):
fetch each descriptor's agent card through the retry transport (environment
`env baseUrl attempt`), build the proxy, and route it by interaction type. A
connection failure that survives the retries propagates as the exception of
the whole load (no partial result). -/
def loadSubAgents (env : String → Nat → Except String AgentCard) (retryTotal : Nat) :
    List SubAgentCfg → Except String (List RemoteAgentModel × List RemoteAgentModel)
  | [] => .ok ([], [])
  | cfg :: rest => do
    let baseUrl := cfg.url.replace AGENT_CARD_WELL_KNOWN_PATH ""
    let card ← (fetchWithRetry (env baseUrl) retryTotal 0).1
    let agent : RemoteAgentModel := ⟨cfg.name, card.description, card⟩
    let (agents, tools) ← loadSubAgents env retryTotal rest
    match cfg.interactionType with
    | .transfer => .ok (agent :: agents, tools)
    | .toolCall => .ok (agents, agent :: tools)

/-- Which header provider `load_tools` wires into a toolset. -/
inductive HeaderProviderKind where
  | allowList (headers : List String)
  | legacy
deriving DecidableEq

/-- The `McpToolset` constructed per tool descriptor
(`StreamableHTTPConnectionParams(url=..., timeout=...)` plus the chosen header
provider). -/
structure McpToolsetModel where
  url : String
  timeout : Nat
  provider : HeaderProviderKind
deriving DecidableEq

/-- Embedding of `AgentFactory.load_tools` (agent.py lines 176-207): for every
descriptor a toolset is constructed, with the allow-list provider when
`propagate_headers` is configured and the legacy provider otherwise. The
function performs no network interaction: no list-tools call is issued at
startup, and no failure path exists. -/
def loadTools (mcpTools : List McpToolCfg) : List McpToolsetModel :=
  mcpTools.map fun tool =>
    { url := tool.url
      timeout := tool.timeout
      provider :=
        match tool.propagateHeaders with
        | some headers => .allowList headers
        | none => .legacy }

/-- A tool dependency of the composed agent: either an agent-as-tool proxy or
an MCP toolset (`ToolUnion`). -/
inductive ToolUnionModel where
  | agentTool (a : RemoteAgentModel)
  | mcpToolset (t : McpToolsetModel)
deriving DecidableEq

/-- The composed `LlmAgent` as touched by `load_agent`: instruction text plus
the two dependency lists. -/
structure LlmAgentModel where
  name : String
  instruction : String
  subAgents : List RemoteAgentModel
  tools : List ToolUnionModel
deriving DecidableEq

/-- The instruction block appended for agent-as-tool proxies (agent.py lines
130-135). -/
def agentToolBlock (agentTools : List RemoteAgentModel) : String :=
  "\n\nFollowing agents are available as tools:\n"
    ++ String.intercalate "\n"
      (agentTools.map fun a => "- \x27" ++ a.name ++ "\x27: " ++ a.description)
    ++ "\nYou can use them by calling the tool with the agent name.\n"

/-- Embedding of `AgentFactory.load_agent` (agent.py lines 114-140): resolve
sub-agents and tools, append the agent-as-tool description block to the
instruction when agent tools exist, and append the resolved dependencies to
the agent's `sub_agents` and `tools` lists. No block is appended for MCP
toolsets. -/
def loadAgent (env : String → Nat → Except String AgentCard) (retryTotal : Nat)
    (agent : LlmAgentModel) (subAgents : List SubAgentCfg) (tools : List McpToolCfg) :
    Except String LlmAgentModel := do
  let (agents, agentTools) ← loadSubAgents env retryTotal subAgents
  let mcpTools := loadTools tools
  let allTools := agentTools.map ToolUnionModel.agentTool
    ++ mcpTools.map ToolUnionModel.mcpToolset
  let instruction :=
    if agentTools.isEmpty then agent.instruction
    else agent.instruction ++ agentToolBlock agentTools
  .ok { agent with
        instruction := instruction
        subAgents := agent.subAgents ++ agents
        tools := agent.tools ++ allTools }

/-- The servable application after startup (`to_starlette` lifespan in
agent_to_a2a.py): the A2A routes are added only after `load_agent` has
completed, so a resolution failure aborts startup and nothing is served. -/
structure A2aAppModel where
  agent : LlmAgentModel
  servingTraffic : Bool
deriving DecidableEq

/-- Embedding of the startup path of `to_a2a`/`to_starlette` (agent_to_a2a.py
lines 160-231): run `load_agent` during the lifespan startup; only on success
is the A2A application created and traffic served. An exception from
resolution aborts the whole startup. -/
def appStartup (env : String → Nat → Except String AgentCard) (retryTotal : Nat)
    (agent : LlmAgentModel) (subAgents : List SubAgentCfg) (tools : List McpToolCfg) :
    Except String A2aAppModel :=
  (loadAgent env retryTotal agent subAgents tools).map fun a => ⟨a, true⟩

/-! Concurrency model for credential-context isolation. The serving pipeline
stores the captured token in ADK session state, keyed by the session id that
the inbound request carries (InMemorySessionService; the session id derives
from the request's context id). Two concurrent requests are modelled as two
logical tasks; each task first runs its Request Interceptor write
(`prepareSession` against its session's slot in the shared session store) and
then its Outbound Header Provider read (`getMcpHeadersFromSession` against the
same slot) - the happens-before order within one request. The scheduler
interleaves the two tasks arbitrarily. -/

/-- One scheduler step: advance the next pending operation of request A or of
request B. -/
inductive SchedStep where
  | stepA
  | stepB
deriving DecidableEq

/-- Progress of one request: whether its interceptor write has run, and the
header dictionary its provider read returned (once it ran). -/
structure ReqProgress where
  wrote : Bool := false
  readResult : Option (List (String × String)) := none
deriving DecidableEq

/-- Shared state of the two-request system: the session-keyed token store
(session id to the `EXTERNAL_TOKEN_SESSION_KEY` slot) plus each request's
progress. -/
structure ConcState where
  store : String → Option String
  progA : ReqProgress := {}
  progB : ReqProgress := {}

/-- Run the next pending operation of one request: first the interceptor
write, which runs `prepareSession` on the request's session slot with the
request's inbound headers, then the provider read, which runs
`getMcpHeadersFromSession` on that slot; afterwards the task is done. -/
def taskOp (sid tok : String) (prog : ReqProgress) (store : String → Option String) :
    ReqProgress × (String → Option String) :=
  match prog.wrote, prog.readResult with
  | false, _ =>
    ({ prog with wrote := true },
      fun s =>
        if s = sid then
          (prepareSession { externalToken := store sid } (some [("x-external-token", tok)])).externalToken
        else store s)
  | true, none =>
    ({ prog with readResult := some (getMcpHeadersFromSession (some { externalToken := store sid })) },
      store)
  | true, some _ => (prog, store)

/-- Execute a schedule over the two concurrent requests: request A carries
token `tokA` for session `sidA`, request B token `tokB` for session `sidB`. -/
def runSched (sidA sidB tokA tokB : String) : List SchedStep → ConcState → ConcState
  | [], s => s
  | step :: rest, s =>
    match step with
    | .stepA =>
      let (p, st) := taskOp sidA tokA s.progA s.store
      runSched sidA sidB tokA tokB rest { s with progA := p, store := st }
    | .stepB =>
      let (p, st) := taskOp sidB tokB s.progB s.store
      runSched sidA sidB tokA tokB rest { s with progB := p, store := st }

/-- The initial state: no token stored for any session, neither request has
run anything. -/
def initConcState : ConcState := { store := fun _ => none }

/-! Dictionary lemmas for the header-provider proofs. -/

/-- Lookup after a Python dict assignment: the assigned key maps to the new
value, all other keys are untouched. -/
theorem pyGet_pyInsert {V : Type} (d : List (String × V)) (k l : String) (v : V) :
    pyGet (pyInsert d k v) l = if l = k then some v else pyGet d l := by
  induction d with
  | nil =>
    rcases eq_or_ne l k with h | h
    · subst h; simp [pyInsert, pyGet]
    · simp [pyInsert, pyGet, h, Ne.symm h]
  | cons ab d ih =>
    obtain ⟨a, b⟩ := ab
    by_cases hak : a = k
    · subst hak
      rcases eq_or_ne l a with h | h
      · subst h; simp [pyInsert, pyGet]
      · simp [pyInsert, pyGet, h, Ne.symm h]
    · rcases eq_or_ne l k with h | h
      · subst h; simp [pyInsert, pyGet, hak, ih]
      · simp [pyInsert, pyGet, hak, h, ih]

/-- Keys after a Python dict assignment: unchanged when the key was present,
the key appended otherwise. -/
theorem pyInsert_keys {V : Type} (d : List (String × V)) (k : String) (v : V) :
    (pyInsert d k v).map Prod.fst
      = if k ∈ d.map Prod.fst then d.map Prod.fst else d.map Prod.fst ++ [k] := by
  induction d with
  | nil => simp [pyInsert]
  | cons ab d ih =>
    obtain ⟨a, b⟩ := ab
    by_cases hak : a = k
    · subst hak; simp [pyInsert]
    · by_cases hk : k ∈ d.map Prod.fst <;>
        simp [pyInsert, hak, Ne.symm hak, hk, ih]

/-- Python dict assignment preserves distinctness of keys. -/
theorem pyInsert_keys_nodup {V : Type} (d : List (String × V)) (k : String) (v : V)
    (h : (d.map Prod.fst).Nodup) : ((pyInsert d k v).map Prod.fst).Nodup := by
  rw [pyInsert_keys]
  by_cases hk : k ∈ d.map Prod.fst
  · simpa [hk] using h
  · simp [hk, List.nodup_append, h]

/-- The stored header entry that wins the case-insensitive lookup for a given
lowercased name: the last entry of the stored dictionary whose key lowercases
to it (later entries overwrite earlier ones in `buildLower`). -/
def lastCaseMatch (lname : String) (stored : List (String × String)) :
    Option (String × String) :=
  stored.foldl (fun acc kv => if pyLower kv.1 = lname then some kv else acc) none

/-- Folding the last-match search from an arbitrary accumulator. -/
theorem lastCaseMatch_foldl (lname : String) (stored : List (String × String))
    (init : Option (String × String)) :
    stored.foldl (fun acc kv => if pyLower kv.1 = lname then some kv else acc) init
      = (lastCaseMatch lname stored).elim init some := by
  induction stored generalizing init with
  | nil => simp [lastCaseMatch]
  | cons kv rest ih =>
    have hcons : lastCaseMatch lname (kv :: rest)
        = (lastCaseMatch lname rest).elim
            (if pyLower kv.1 = lname then some kv else none) some := by
      rw [lastCaseMatch, List.foldl_cons, ih]
    rw [List.foldl_cons, ih, hcons]
    cases h : lastCaseMatch lname rest <;> by_cases hp : pyLower kv.1 = lname <;> simp [hp]

/-- Lookup in the lowered table built by `header_provider` returns exactly the
last case-insensitive match of the stored dictionary. -/
theorem pyGet_buildLower_aux (stored : List (String × String))
    (init : List (String × (String × String))) (lname : String) :
    pyGet (stored.foldl (fun acc kv => pyInsert acc (pyLower kv.1) (kv.1, kv.2)) init) lname
      = (lastCaseMatch lname stored).elim (pyGet init lname) some := by
  induction stored generalizing init with
  | nil => simp [lastCaseMatch]
  | cons kv rest ih =>
    have hcons : lastCaseMatch lname (kv :: rest)
        = (lastCaseMatch lname rest).elim
            (if pyLower kv.1 = lname then some kv else none) some := by
      rw [lastCaseMatch, List.foldl_cons, lastCaseMatch_foldl]
    rw [List.foldl_cons, ih, hcons, pyGet_pyInsert]
    rcases eq_or_ne (pyLower kv.1) lname with hp | hp
    · cases h : lastCaseMatch lname rest <;> simp [hp]
    · cases h : lastCaseMatch lname rest <;> simp [hp, Ne.symm hp]

/-- Lookup in the lowered table equals the last case-insensitive match. -/
theorem pyGet_buildLower (stored : List (String × String)) (lname : String) :
    pyGet (buildLower stored) lname = lastCaseMatch lname stored := by
  have h := pyGet_buildLower_aux stored [] lname
  rw [buildLower, h]
  cases hl : lastCaseMatch lname stored <;> simp [pyGet]

/-- Lookup in the filtering fold of `header_provider`, from an arbitrary
accumulator: a configured name that has a stored match maps to the matched
value, everything else falls through to the accumulator. -/
theorem pyGet_filterConfigured_aux (table : List (String × (String × String)))
    (props : List String) (init : List (String × String)) (name : String) :
    pyGet (props.foldl (fun acc n =>
        match pyGet table (pyLower n) with
        | some kv => pyInsert acc n kv.2
        | none => acc) init) name
      = if name ∈ props ∧ (pyGet table (pyLower name)).isSome
        then (pyGet table (pyLower name)).map Prod.snd
        else pyGet init name := by
  induction props generalizing init with
  | nil => simp
  | cons p rest ih =>
    rw [List.foldl_cons, ih]
    rcases Decidable.em (name ∈ rest ∧ (pyGet table (pyLower name)).isSome) with hmem | hmem
    · have hc : name ∈ p :: rest ∧ (pyGet table (pyLower name)).isSome :=
        ⟨List.mem_cons_of_mem _ hmem.1, hmem.2⟩
      simp [hmem, hc]
    · rw [if_neg hmem]
      cases hp : pyGet table (pyLower p) with
      | none =>
        rcases eq_or_ne name p with h | h
        · subst h
          rw [if_neg]
          intro hc
          rw [hp] at hc
          exact absurd hc.2 (by simp)
        · rw [if_neg]
          intro hc
          exact hmem ⟨(List.mem_cons.mp hc.1).resolve_left h, hc.2⟩
      | some kv =>
        rw [pyGet_pyInsert]
        rcases eq_or_ne name p with h | h
        · subst h
          simp [hp]
        · rw [if_neg h, if_neg]
          intro hc
          exact hmem ⟨(List.mem_cons.mp hc.1).resolve_left h, hc.2⟩

/-- Lookup in the output of the filtering loop: a configured name maps to the
value of its last case-insensitive stored match, an unconfigured name to
nothing. -/
theorem pyGet_filterConfigured (props : List String)
    (table : List (String × (String × String))) (name : String) :
    pyGet (filterConfigured props table) name
      = if name ∈ props then (pyGet table (pyLower name)).map Prod.snd else none := by
  rw [filterConfigured, pyGet_filterConfigured_aux]
  by_cases hm : name ∈ props
  · cases hs : pyGet table (pyLower name) <;> simp [hm, hs, pyGet]
  · simp [hm, pyGet]

/-- Keys of the filtering fold stay within the accumulator keys and the
configured names. -/
theorem filterConfigured_keys_aux (table : List (String × (String × String)))
    (props : List String) (init : List (String × String)) (k : String)
    (hk : k ∈ (props.foldl (fun acc n =>
        match pyGet table (pyLower n) with
        | some kv => pyInsert acc n kv.2
        | none => acc) init).map Prod.fst) :
    k ∈ init.map Prod.fst ∨ k ∈ props := by
  induction props generalizing init with
  | nil => exact Or.inl hk
  | cons p rest ih =>
    rw [List.foldl_cons] at hk
    rcases ih _ hk with h | h
    · cases hp : pyGet table (pyLower p) with
      | none =>
        rw [hp] at h
        exact Or.inl h
      | some kv =>
        rw [hp, pyInsert_keys] at h
        by_cases hm : p ∈ init.map Prod.fst
        · rw [if_pos hm] at h
          exact Or.inl h
        · rw [if_neg hm] at h
          rcases List.mem_append.mp h with h | h
          · exact Or.inl h
          · simp only [List.mem_singleton] at h
            exact Or.inr (h ▸ List.mem_cons_self p rest)
    · exact Or.inr (List.mem_cons_of_mem _ h)

/-- The filtering fold keeps the keys of its accumulator distinct. -/
theorem filterConfigured_nodup_aux (table : List (String × (String × String)))
    (props : List String) (init : List (String × String))
    (h : (init.map Prod.fst).Nodup) :
    ((props.foldl (fun acc n =>
        match pyGet table (pyLower n) with
        | some kv => pyInsert acc n kv.2
        | none => acc) init).map Prod.fst).Nodup := by
  induction props generalizing init with
  | nil => exact h
  | cons p rest ih =>
    rw [List.foldl_cons]
    apply ih
    cases hp : pyGet table (pyLower p) with
    | none => exact h
    | some kv => exact pyInsert_keys_nodup _ _ _ h

/-- C1: for every tool server configured with an explicit header allow-list
and every request credential context, the outbound header provider built by
`_create_header_provider` returns exactly the mapping whose keys are the
configured header names that match a stored inbound header
case-insensitively: looking up any name in its output yields the value of the
(last) case-insensitively matching stored header when the name is configured
and matched, and nothing otherwise; its keys are pairwise distinct; and every
emitted entry is keyed by a configured name (in the configured casing), so no
other header appears and unmatched configured names are omitted rather than
defaulted to an empty string. -/
theorem allowlist_provider_exact (propagateHeaders : List String) (tok : Option String)
    (stored : List (String × String)) (name : String) :
    (pyGet (createHeaderProvider propagateHeaders (some ⟨tok, stored⟩)) name
      = if name ∈ propagateHeaders
        then (lastCaseMatch (pyLower name) stored).map Prod.snd
        else none)
    ∧ ((createHeaderProvider propagateHeaders (some ⟨tok, stored⟩)).map Prod.fst).Nodup
    ∧ ∀ kv ∈ createHeaderProvider propagateHeaders (some ⟨tok, stored⟩),
        kv.1 ∈ propagateHeaders := by
  by_cases hs : stored = []
  · subst hs
    refine ⟨?_, ?_, ?_⟩
    · simp [createHeaderProvider, pyGet, lastCaseMatch]
    · simp [createHeaderProvider]
    · simp [createHeaderProvider]
  · simp only [createHeaderProvider, hs, if_false]
    refine ⟨?_, ?_, ?_⟩
    · rw [pyGet_filterConfigured]
      by_cases hm : name ∈ propagateHeaders <;> simp [hm, pyGet_buildLower]
    · exact filterConfigured_nodup_aux _ _ _ (by simp)
    · intro kv hkv
      have hk : kv.1 ∈ (filterConfigured propagateHeaders (buildLower stored)).map Prod.fst :=
        List.mem_map_of_mem Prod.fst hkv
      rcases filterConfigured_keys_aux _ _ _ _ hk with h | h
      · simp at h
      · exact h

/-- The stored entry winning the case-insensitive lookup is the last stored
entry when every stored key matches. -/
theorem lastCaseMatch_all (lname : String) (stored : List (String × String))
    (hne : stored ≠ []) (hall : ∀ kv ∈ stored, pyLower kv.1 = lname) :
    lastCaseMatch lname stored = some (stored.getLast hne) := by
  induction stored with
  | nil => exact absurd rfl hne
  | cons kv rest ih =>
    cases rest with
    | nil =>
      have h := hall kv (List.mem_cons_self kv [])
      simp [lastCaseMatch, h]
    | cons kv2 rest2 =>
      have hrest : kv2 :: rest2 ≠ [] := by simp
      have hallr : ∀ x ∈ kv2 :: rest2, pyLower x.1 = lname :=
        fun x hx => hall x (List.mem_cons_of_mem _ hx)
      have hcons : lastCaseMatch lname (kv :: kv2 :: rest2)
          = (lastCaseMatch lname (kv2 :: rest2)).elim
              (if pyLower kv.1 = lname then some kv else none) some := by
        rw [lastCaseMatch, List.foldl_cons, lastCaseMatch_foldl]
      rw [hcons, ih hrest hallr]
      simp [List.getLast_cons]

/-- C10: when the stored inbound headers hold several keys that differ only
in letter case and all match one configured header name, the allow-list
provider emits exactly one entry for that configured name, and its value is
the one whose stored key comes last in the stored dictionary's iteration
order (later entries overwrite earlier ones in the lowercase lookup table). -/
theorem allowlist_provider_last_case_wins (name : String) (tok : Option String)
    (stored : List (String × String)) (hne : stored ≠ [])
    (hall : ∀ kv ∈ stored, pyLower kv.1 = pyLower name) :
    createHeaderProvider [name] (some ⟨tok, stored⟩)
      = [(name, (stored.getLast hne).2)] := by
  simp only [createHeaderProvider, hne, if_false]
  rw [filterConfigured]
  simp only [List.foldl_cons, List.foldl_nil]
  rw [pyGet_buildLower, lastCaseMatch_all (pyLower name) stored hne hall]
  simp [pyInsert]

/-- Witness for C10 at a concrete input: two stored spellings of
`Authorization`; the provider emits the configured casing with the later
stored value. -/
theorem allowlist_provider_last_case_wins_witness :
    createHeaderProvider ["Authorization"]
      (some { httpHeaders := [("authorization", "v1"), ("AUTHORIZATION", "v2")] })
      = [("Authorization", "v2")] :=
  allowlist_provider_last_case_wins "Authorization" none
    [("authorization", "v1"), ("AUTHORIZATION", "v2")] (by decide) (by decide)

/-- C5: in legacy mode (no allow-list configured, so `load_tools` wires the
legacy provider): when no token is stored the provider returns a mapping with
no `X-External-Token` key at all - and an empty stored string likewise yields
no key rather than an empty-string value - and when a non-empty token is
stored it returns exactly the single-entry mapping carrying that token. The
same holds for the `ContextVar`-based `get_mcp_headers`. -/
theorem legacy_provider_exact (tok : String) (hs : List (String × String))
    (h : tok ≠ "") :
    getMcpHeadersFromSession (some ⟨none, hs⟩) = []
    ∧ getMcpHeadersFromSession (some ⟨some "", hs⟩) = []
    ∧ getMcpHeadersFromSession (some ⟨some tok, hs⟩) = [("X-External-Token", tok)]
    ∧ getMcpHeaders none = []
    ∧ getMcpHeaders (some tok) = [("X-External-Token", tok)]
    ∧ (loadTools [⟨"tool", "http://mcp.local/mcp", 30, none⟩]).map McpToolsetModel.provider
        = [HeaderProviderKind.legacy] := by
  refine ⟨rfl, rfl, ?_, rfl, ?_, rfl⟩
  · simp [getMcpHeadersFromSession, h]
  · simp [getMcpHeaders, h]

/-- Witness for C5 at a concrete token. -/
theorem legacy_provider_exact_witness :
    getMcpHeadersFromSession (some { externalToken := some "legacy-token-12345" })
      = [("X-External-Token", "legacy-token-12345")] :=
  (legacy_provider_exact "legacy-token-12345" [] (by decide)).2.2.1

/-- C3 counterexample: the interceptor does not read the token header
case-insensitively. For the inbound spelling `X-External-TOKEN` - not one of
the three spellings the code checks - the token is not extracted and nothing
is stored in the credential context. -/
theorem interceptor_casing_counterexample :
    extractExternalToken [("X-External-TOKEN", "tok")] = none
    ∧ (prepareSession {} (some [("X-External-TOKEN", "tok")])).externalToken = none := by
  exact ⟨rfl, rfl⟩

/-- Amended reading of C3, following the spec's words with the recognized
spellings corrected: the interceptor checks exactly the three spellings
`x-external-token`, `X-External-Token`, `X-EXTERNAL-TOKEN` in that order and
stores the first present non-empty value. -/
def recognizedTokenSpec (headers : List (String × String)) : Option String :=
  (["x-external-token", "X-External-Token", "X-EXTERNAL-TOKEN"].filterMap
    (fun n =>
      match pyGet headers n with
      | some t => if t = "" then none else some t
      | none => none)).head?

/-- C3 amended: the interceptor recognizes exactly the three spellings
`x-external-token`, `X-External-Token` and `X-EXTERNAL-TOKEN` of the token
header (not arbitrary letter-casings); the first of these that is present
with a non-empty value is written into the credential context for the
request's session, and in every other case - including an absent header or an
absent call context - the prepared session is returned unchanged, the request
proceeding normally rather than failing. -/
theorem interceptor_three_spellings (session : SessionState)
    (headers : List (String × String)) :
    (prepareSession session (some headers)
      = match recognizedTokenSpec headers with
        | some tok => { session with externalToken := some tok }
        | none => session)
    ∧ prepareSession session none = session := by
  refine ⟨?_, rfl⟩
  simp only [prepareSession, extractExternalToken, pyOrStr, recognizedTokenSpec,
    List.filterMap]
  cases h1 : pyGet headers "x-external-token" <;>
    cases h2 : pyGet headers "X-External-Token" <;>
      cases h3 : pyGet headers "X-EXTERNAL-TOKEN" <;>
        simp_all <;> split_ifs <;> simp_all

/-- C4 (evaluation of the code at the failing input): `_prepare_session`
never writes the header store (`HTTP_HEADERS_SESSION_KEY`) that the
allow-list provider reads, so for a request carrying the allow-listed header
`x-api-key` the provider output is empty rather than non-empty. -/
theorem interceptor_never_stores_headers :
    (∀ (session : SessionState) (ctx : Option (List (String × String))),
        (prepareSession session ctx).httpHeaders = session.httpHeaders)
    ∧ createHeaderProvider ["X-API-Key"]
        (some (prepareSession {}
          (some [("x-api-key", "api-key-12345"), ("x-external-token", "tok")])))
        = [] := by
  constructor
  · intro session ctx
    cases ctx with
    | none => rfl
    | some headers =>
      simp only [prepareSession]
      cases extractExternalToken headers with
      | none => rfl
      | some t => by_cases ht : t = "" <;> simp [ht]
  · decide

/-- C6 (evaluation of the code at the failing input): `load_tools` performs
no startup schema-listing call - it is a total function of the descriptors
alone, producing one toolset per descriptor - so a tool server whose
list-tools call would raise a connection-level exception cannot make tool
resolution raise anything: for the descriptor named `unavailable_tool`
pointing at an unreachable URL, the toolset is constructed and returned
normally. -/
theorem load_tools_never_contacts_server :
    (∀ cfgs : List McpToolCfg, (loadTools cfgs).length = cfgs.length)
    ∧ loadTools [⟨"unavailable_tool", "http://unreachable-mcp.local/mcp", 30, none⟩]
        = [⟨"http://unreachable-mcp.local/mcp", 30, .legacy⟩] :=
  ⟨fun cfgs => by simp [loadTools], rfl⟩

/-- Exhausting the retry budget: an endpoint that fails every attempt is
tried exactly `retriesLeft + 1` times starting from any attempt index, and
the final connection error is returned. -/
theorem fetchWithRetry_fail (endpoint : Nat → Except String AgentCard) (e : String)
    (h : ∀ n, endpoint n = .error e) :
    ∀ retriesLeft startIdx, fetchWithRetry endpoint retriesLeft startIdx
      = (.error e, startIdx + retriesLeft + 1) := by
  intro r
  induction r with
  | zero =>
    intro k
    rw [fetchWithRetry, h k]
  | succ r ih =>
    intro k
    rw [fetchWithRetry, h k]
    show fetchWithRetry endpoint r (k + 1) = _
    rw [ih (k + 1)]
    simp only [Prod.mk.injEq, true_and]
    omega

/-- A sub-agent whose endpoint fails every retried attempt makes the whole
sub-agent load fail with that connection error. -/
theorem loadSubAgents_error (env : String → Nat → Except String AgentCard)
    (retryTotal : Nat) (e : String) (cfg : SubAgentCfg) (rest : List SubAgentCfg)
    (h : ∀ url n, env url n = .error e) :
    loadSubAgents env retryTotal (cfg :: rest) = .error e := by
  rw [loadSubAgents]
  rw [fetchWithRetry_fail (env (cfg.url.replace AGENT_CARD_WELL_KNOWN_PATH "")) e
    (h _) retryTotal 0]
  rfl

/-- C7: when a configured sub-agent's metadata endpoint returns a connection
error on every attempt, resolution performs exactly 1 + retryTotal fetch
attempts against it (3 attempts for a retry budget of 2), and the whole
application startup fails with that error - `appStartup` returns the error,
so no agent graph is assembled and no traffic is served. -/
theorem subagent_retry_exhaustion (e : String) (endpoint : Nat → Except String AgentCard)
    (retryTotal : Nat) (agent : LlmAgentModel) (cfg : SubAgentCfg)
    (h : ∀ n, endpoint n = .error e) :
    fetchAttempts endpoint retryTotal = retryTotal + 1
    ∧ appStartup (fun _ => endpoint) retryTotal agent [cfg] [] = .error e := by
  constructor
  · rw [fetchAttempts, fetchWithRetry_fail endpoint e h retryTotal 0]
    omega
  · have hl : loadSubAgents (fun _ => endpoint) retryTotal [cfg] = .error e :=
      loadSubAgents_error _ _ _ _ _ (fun _ n => h n)
    rw [appStartup, loadAgent, hl]
    rfl

/-- Witness for C7: with retry budget 2 and an endpoint that always raises a
connection error, exactly 3 attempts are made and startup fails. -/
theorem subagent_retry_exhaustion_witness :
    fetchAttempts (fun _ => .error "Connection failed") 2 = 2 + 1
    ∧ appStartup (fun _ _ => .error "Connection failed") 2
        ⟨"test_agent", "You are a test agent.", [], []⟩
        [⟨"unavailable_agent",
          "http://unavailable-agent.local/.well-known/agent-card.json",
          .transfer⟩] []
        = .error "Connection failed" :=
  subagent_retry_exhaustion "Connection failed" (fun _ => .error "Connection failed") 2
    ⟨"test_agent", "You are a test agent.", [], []⟩
    ⟨"unavailable_agent", "http://unavailable-agent.local/.well-known/agent-card.json",
      .transfer⟩
    (fun _ => rfl)

/-- C8 (evaluation of the code at the failing input): `load_agent` appends
the resolved toolsets to the agent's tool list but appends an instruction
block only for agent-as-tool proxies; with one remote tool server configured
(whose introspected tool `get_customer_crm_data` carries a description) the
instruction text is returned unchanged, so the tool's name cannot occur in
it: no character split of the (empty) instruction contains it. -/
theorem load_agent_no_mcp_description_block :
    loadAgent (fun _ _ => .error "unused") 2
        ⟨"customer_service_agent", "", [], []⟩ []
        [⟨"crm_tools", "http://test-crm-mcp.local/mcp", 30, none⟩]
      = .ok ⟨"customer_service_agent", "", [],
          [.mcpToolset ⟨"http://test-crm-mcp.local/mcp", 30, .legacy⟩]⟩
    ∧ ∀ pre post : List Char,
        ("" : String).data ≠ pre ++ "get_customer_crm_data".data ++ post := by
  constructor
  · rfl
  · intro pre post h
    have hlen := congrArg List.length h
    have h21 : ("get_customer_crm_data".data).length = 21 := rfl
    have h0 : (("" : String).data).length = 0 := rfl
    rw [h0, List.length_append, List.length_append, h21] at hlen
    omega

/-- C9 counterexample: running the load/assemble step a second time with the
same sub-agent descriptor (name `helper`, transfer mode, a reachable card
endpoint) leaves the composed agent's dependency list with TWO registrations
of that sub-agent, not one - `load_agent` appends with no deduplication. -/
theorem load_agent_twice_duplicates :
    (do
      let a1 ← loadAgent
        (fun _ _ => .ok ⟨"helper", "Mock agent helper", "http://helper.local"⟩) 2
        ⟨"root", "", [], []⟩
        [⟨"helper", "http://helper.local/.well-known/agent-card.json",
          InteractionType.transfer⟩] []
      loadAgent
        (fun _ _ => .ok ⟨"helper", "Mock agent helper", "http://helper.local"⟩) 2
        a1
        [⟨"helper", "http://helper.local/.well-known/agent-card.json",
          InteractionType.transfer⟩] [])
      = .ok ⟨"root", "",
          [⟨"helper", "Mock agent helper",
            ⟨"helper", "Mock agent helper", "http://helper.local"⟩⟩,
           ⟨"helper", "Mock agent helper",
            ⟨"helper", "Mock agent helper", "http://helper.local"⟩⟩], []⟩ := rfl

/-- C9 amended: resolving a sub-agent descriptor registers it afresh on every
load - a successful `load_agent` run over one transfer-mode descriptor grows
the agent's sub-agent list by exactly one entry (and leaves the tool list
unchanged), with no deduplication against existing registrations, so loading
the same descriptor twice registers the sub-agent twice. -/
theorem load_agent_appends_registration (env : String → Nat → Except String AgentCard)
    (retryTotal : Nat) (agent agent2 : LlmAgentModel) (cfg : SubAgentCfg)
    (htr : cfg.interactionType = InteractionType.transfer)
    (h : loadAgent env retryTotal agent [cfg] [] = .ok agent2) :
    agent2.subAgents.length = agent.subAgents.length + 1
    ∧ agent2.tools.length = agent.tools.length := by
  rw [loadAgent, loadSubAgents] at h
  cases hf : (fetchWithRetry (env (cfg.url.replace AGENT_CARD_WELL_KNOWN_PATH ""))
      retryTotal 0).1 with
  | error e =>
    rw [hf] at h
    simp [Bind.bind, Except.bind] at h
  | ok card =>
    rw [hf, htr] at h
    simp only [Bind.bind, Except.bind, loadSubAgents, loadTools, List.map_nil,
      List.append_nil, List.isEmpty_nil, if_true, Except.ok.injEq] at h
    subst h
    simp

/-- Witness for the amended C9 statement: one successful load of the `helper`
descriptor onto an agent with empty dependency lists yields exactly one
registration. -/
theorem load_agent_appends_registration_witness :
    (LlmAgentModel.mk "root" ""
        [RemoteAgentModel.mk "helper" "Mock agent helper"
          (AgentCard.mk "helper" "Mock agent helper" "http://helper.local")]
        []).subAgents.length
      = (LlmAgentModel.mk "root" "" [] []).subAgents.length + 1
    ∧ (LlmAgentModel.mk "root" ""
        [RemoteAgentModel.mk "helper" "Mock agent helper"
          (AgentCard.mk "helper" "Mock agent helper" "http://helper.local")]
        []).tools.length
      = (LlmAgentModel.mk "root" "" [] []).tools.length :=
  load_agent_appends_registration
    (fun _ _ => .ok ⟨"helper", "Mock agent helper", "http://helper.local"⟩) 2
    ⟨"root", "", [], []⟩
    ⟨"root", "",
      [⟨"helper", "Mock agent helper",
        ⟨"helper", "Mock agent helper", "http://helper.local"⟩⟩], []⟩
    ⟨"helper", "http://helper.local/.well-known/agent-card.json",
      InteractionType.transfer⟩
    rfl rfl

/-- The interceptor stores the inbound token into the session slot it runs
against, whatever was there before (helper for the isolation proofs). -/
theorem prepareSession_writes_token (st : SessionState) (t : String) (ht : t ≠ "") :
    (prepareSession st (some [("x-external-token", t)])).externalToken = some t := by
  simp [prepareSession, extractExternalToken, pyGet, pyOrStr, ht]


/-- Equation of `taskOp` for the pending interceptor write. -/
theorem taskOp_write (sid tok : String) (prog : ReqProgress)
    (store : String → Option String) (hw : prog.wrote = false) :
    taskOp sid tok prog store
      = ({ prog with wrote := true },
        fun s =>
          if s = sid then
            (prepareSession { externalToken := store sid }
              (some [("x-external-token", tok)])).externalToken
          else store s) := by
  unfold taskOp
  rw [hw]

/-- Equation of `taskOp` for the pending provider read. -/
theorem taskOp_read (sid tok : String) (prog : ReqProgress)
    (store : String → Option String) (hw : prog.wrote = true)
    (hr : prog.readResult = none) :
    taskOp sid tok prog store
      = ({ prog with
            readResult := some (getMcpHeadersFromSession (some { externalToken := store sid })) },
        store) := by
  unfold taskOp
  rw [hw, hr]

/-- Equation of `taskOp` for a finished task. -/
theorem taskOp_done (sid tok : String) (prog : ReqProgress)
    (store : String → Option String) (r : List (String × String))
    (hw : prog.wrote = true) (hr : prog.readResult = some r) :
    taskOp sid tok prog store = (prog, store) := by
  unfold taskOp
  rw [hw, hr]

/-- Unfolding one scheduler step of request A. -/
theorem runSched_cons_stepA (sidA sidB tokA tokB : String) (rest : List SchedStep)
    (s : ConcState) :
    runSched sidA sidB tokA tokB (SchedStep.stepA :: rest) s
      = runSched sidA sidB tokA tokB rest
          { s with progA := (taskOp sidA tokA s.progA s.store).1,
                   store := (taskOp sidA tokA s.progA s.store).2 } := by
  rw [runSched]

/-- Unfolding one scheduler step of request B. -/
theorem runSched_cons_stepB (sidA sidB tokA tokB : String) (rest : List SchedStep)
    (s : ConcState) :
    runSched sidA sidB tokA tokB (SchedStep.stepB :: rest) s
      = runSched sidA sidB tokA tokB rest
          { s with progB := (taskOp sidB tokB s.progB s.store).1,
                   store := (taskOp sidB tokB s.progB s.store).2 } := by
  rw [runSched]

/-- Invariant of the two-request system when the requests target distinct
sessions: each session slot only ever holds its own request's token, and each
provider read only ever returned its own request's header dictionary. -/
def IsolationInv (sidA sidB tokA tokB : String) (s : ConcState) : Prop :=
  (s.progA.wrote = true → s.store sidA = some tokA)
  ∧ (s.progB.wrote = true → s.store sidB = some tokB)
  ∧ (s.progA.readResult = none
      ∨ s.progA.readResult = some [("X-External-Token", tokA)])
  ∧ (s.progB.readResult = none
      ∨ s.progB.readResult = some [("X-External-Token", tokB)])

/-- The isolation invariant is preserved by every schedule, for distinct
session ids and non-empty tokens. -/
theorem isolationInv_run (sidA sidB tokA tokB : String) (hsid : sidA ≠ sidB)
    (hA : tokA ≠ "") (hB : tokB ≠ "") :
    ∀ (sched : List SchedStep) (s : ConcState),
      IsolationInv sidA sidB tokA tokB s →
      IsolationInv sidA sidB tokA tokB (runSched sidA sidB tokA tokB sched s) := by
  intro sched
  induction sched with
  | nil => exact fun s h => h
  | cons step rest ih =>
    intro s h
    obtain ⟨h1, h2, h3, h4⟩ := h
    cases step with
    | stepA =>
      rw [runSched_cons_stepA]
      apply ih
      cases hw : s.progA.wrote with
      | false =>
        rw [taskOp_write sidA tokA s.progA s.store hw]
        refine ⟨?_, ?_, h3, h4⟩
        · intro _
          show (if sidA = sidA then _ else _) = some tokA
          rw [if_pos rfl]
          exact prepareSession_writes_token _ tokA hA
        · intro hbw
          show (if sidB = sidA then _ else _) = some tokB
          rw [if_neg (Ne.symm hsid)]
          exact h2 hbw
      | true =>
        cases hr : s.progA.readResult with
        | none =>
          rw [taskOp_read sidA tokA s.progA s.store hw hr]
          refine ⟨fun _ => h1 hw, h2, Or.inr ?_, h4⟩
          rw [h1 hw]
          simp [getMcpHeadersFromSession, hA]
        | some r =>
          rw [taskOp_done sidA tokA s.progA s.store r hw hr]
          exact ⟨h1, h2, h3, h4⟩
    | stepB =>
      rw [runSched_cons_stepB]
      apply ih
      cases hw : s.progB.wrote with
      | false =>
        rw [taskOp_write sidB tokB s.progB s.store hw]
        refine ⟨?_, ?_, h3, h4⟩
        · intro haw
          show (if sidA = sidB then _ else _) = some tokA
          rw [if_neg hsid]
          exact h1 haw
        · intro _
          show (if sidB = sidB then _ else _) = some tokB
          rw [if_pos rfl]
          exact prepareSession_writes_token _ tokB hB
      | true =>
        cases hr : s.progB.readResult with
        | none =>
          rw [taskOp_read sidB tokB s.progB s.store hw hr]
          refine ⟨h1, fun _ => h2 hw, h3, Or.inr ?_⟩
          rw [h2 hw]
          simp [getMcpHeadersFromSession, hB]
        | some r =>
          rw [taskOp_done sidB tokB s.progB s.store r hw hr]
          exact ⟨h1, h2, h3, h4⟩

/-- C2 amended: across concurrent requests that target DISTINCT sessions
(distinct context/session ids), credential isolation holds for every
interleaving of the two tasks: request A's Outbound Header Provider read only
ever returns request A's own token header (or has not yet run), and likewise
for request B - the token stored by one request's interceptor is never
returned by the other request's provider read. The token store is keyed by
session id, so the guarantee is per-session; it does not extend to two
concurrent requests sharing one session id. -/
theorem token_isolation_distinct_sessions (sidA sidB tokA tokB : String)
    (hsid : sidA ≠ sidB) (hA : tokA ≠ "") (hB : tokB ≠ "") :
    ∀ sched : List SchedStep,
      ((runSched sidA sidB tokA tokB sched initConcState).progA.readResult = none
        ∨ (runSched sidA sidB tokA tokB sched initConcState).progA.readResult
            = some [("X-External-Token", tokA)])
      ∧ ((runSched sidA sidB tokA tokB sched initConcState).progB.readResult = none
        ∨ (runSched sidA sidB tokA tokB sched initConcState).progB.readResult
            = some [("X-External-Token", tokB)]) := by
  intro sched
  have hinv := isolationInv_run sidA sidB tokA tokB hsid hA hB sched initConcState
    ⟨by simp [initConcState], by simp [initConcState], Or.inl rfl, Or.inl rfl⟩
  exact ⟨hinv.2.2.1, hinv.2.2.2⟩

/-- Witness for the amended C2 statement at concrete sessions, tokens and one
interleaving. -/
theorem token_isolation_distinct_sessions_witness :
    ((runSched "ctx-1" "ctx-2" "token-1" "token-2"
        [SchedStep.stepA, SchedStep.stepB, SchedStep.stepB, SchedStep.stepA]
        initConcState).progA.readResult = none
      ∨ (runSched "ctx-1" "ctx-2" "token-1" "token-2"
        [SchedStep.stepA, SchedStep.stepB, SchedStep.stepB, SchedStep.stepA]
        initConcState).progA.readResult = some [("X-External-Token", "token-1")])
    ∧ ((runSched "ctx-1" "ctx-2" "token-1" "token-2"
        [SchedStep.stepA, SchedStep.stepB, SchedStep.stepB, SchedStep.stepA]
        initConcState).progB.readResult = none
      ∨ (runSched "ctx-1" "ctx-2" "token-1" "token-2"
        [SchedStep.stepA, SchedStep.stepB, SchedStep.stepB, SchedStep.stepA]
        initConcState).progB.readResult = some [("X-External-Token", "token-2")]) :=
  token_isolation_distinct_sessions "ctx-1" "ctx-2" "token-1" "token-2"
    (by decide) (by decide) (by decide)
    [SchedStep.stepA, SchedStep.stepB, SchedStep.stepB, SchedStep.stepA]

/-- C2 counterexample: two concurrent requests carrying the distinct tokens
`token-1` and `token-2` but sharing one session id (`ctx-1`): under the
interleaving write-A, write-B, read-A, read-B, request A's provider read
returns request B's token - the value stored by B's Request Interceptor IS
returned by the Header/Token Context read performed during A's Outbound
Header Provider call, falsifying the claim as stated. -/
theorem token_isolation_shared_session_counterexample :
    (runSched "ctx-1" "ctx-1" "token-1" "token-2"
        [SchedStep.stepA, SchedStep.stepB, SchedStep.stepA, SchedStep.stepB]
        initConcState).progA.readResult
      = some [("X-External-Token", "token-2")] := by
  rfl
